import Mathlib

/-!
# Shallow embedding of the broadcast-system server

This development embeds the state-synchronization core of the broadcast
server (`src/server.js`, `src/unnamed/part_001`, `src/lib/broadcast.js`,
`src/lib/rateLimit.js`, `src/lib/YouTubeChatScraper.js`) and settles the
testable properties of its specification against the embedded code.

Conventions:
* JavaScript arrays become `List`, `Array.prototype.push` becomes `++ [x]`,
  `Array.prototype.slice(-n)` becomes `drop (length - n)`.
* `Set` objects (`seenMessageIds`) become `List` with a membership guard
  before insertion, so the list length is the set cardinality.
* `Date.now()` timestamps become `Nat` milliseconds passed explicitly.
* Top-level state values compared by `JSON.stringify` are embedded by their
  serialized string, since the code only ever compares serializations.
* Network effects (fetch results, poll outcomes) become explicit parameters.
-/

namespace BroadcastSystem

/-! ## Chat messages

The message objects produced by `parseTextMessage` / `parseSuperchat` and by
the `add_to_queue` handler.  Only the fields the embedded control paths
inspect are carried; extra payload fields ride in `message`/`author`. -/

structure ChatMsg where
  id : String
  author : String
  message : String
  isSuperchat : Bool
  deriving DecidableEq

/-! ## Rate limiter (`src/lib/rateLimit.js`)

`rateLimits` is a `Map` from client id to `{ count, resetTime }`; we embed it
as a function from client ids to an optional entry. -/

structure RLEntry where
  count : Nat
  resetTime : Nat
  deriving DecidableEq

def RATE_LIMIT_WINDOW : Nat := 1000

def RATE_LIMIT_MAX : Nat := 100

abbrev RLMap := Nat → Option RLEntry

/-- `checkRateLimit(clientId)` from `src/lib/rateLimit.js` lines 15-31:
look up the entry, reset it when missing or expired, increment the count,
and deny once the count exceeds `RATE_LIMIT_MAX`. -/
def checkRateLimit (m : RLMap) (clientId now : Nat) : Bool × RLMap :=
  let clientLimit : RLEntry :=
    match m clientId with
    | none => { count := 0, resetTime := now + RATE_LIMIT_WINDOW }
    | some e =>
        if now > e.resetTime then
          { count := 0, resetTime := now + RATE_LIMIT_WINDOW }
        else e
  let clientLimit := { clientLimit with count := clientLimit.count + 1 }
  let m' := fun id => if id = clientId then some clientLimit else m id
  (!(clientLimit.count > RATE_LIMIT_MAX), m')

/-- Run `checkRateLimit` for one client at a list of call times, collecting
the returned booleans in order. -/
def runRateLimit (m : RLMap) (clientId : Nat) : List Nat → List Bool × RLMap
  | [] => ([], m)
  | t :: ts =>
      let r := checkRateLimit m clientId t
      let rest := runRateLimit r.2 clientId ts
      (r.1 :: rest.1, rest.2)

/-! ## Message queue cap

Both `scraper.onMessage` (`src/server.js` lines 664-673) and the
`add_to_queue` handler (`src/unnamed/part_001` lines 228-249) push the new
message and then cut the queue back to its last 100 entries:

  state.queue.push(msg);
  if (state.queue.length > 100) state.queue = state.queue.slice(-100);
-/

def QUEUE_CAP : Nat := 100

def pushCapped (q : List ChatMsg) (m : ChatMsg) : List ChatMsg :=
  let q := q ++ [m]
  if q.length > QUEUE_CAP then q.drop (q.length - QUEUE_CAP) else q

/-! ## Broadcast engine (`src/lib/broadcast.js`)

`messageBatch` is `{ queue, timeout, BATCH_DELAY: 50, MAX_BATCH_SIZE: 20 }`.
We track the pending queue and whether a flush timer handle is outstanding.
Frames are what one `OPEN` client receives, in send order: either a single
`{type, data}` payload or a `{type: 'batch', messages}` envelope. -/

structure WsMsg (α : Type) where
  type : String
  data : α
  deriving DecidableEq

inductive Frame (α : Type) where
  | single (m : WsMsg α)
  | batch (ms : List (WsMsg α))
  deriving DecidableEq

structure BatchState (α : Type) where
  queue : List (WsMsg α)
  timeoutSet : Bool
  deriving DecidableEq

def BATCH_DELAY : Nat := 50

def MAX_BATCH_SIZE : Nat := 20

def immediateTypes : List String :=
  ["status", "error", "init", "slideshow_init", "slideshow_update",
   "sports_ticker_init", "sports_ticker_update", "state_delta", "pin",
   "queue_update"]

/-- `flushBatch()` (`src/lib/broadcast.js` lines 25-44): an empty queue
returns early; otherwise the whole queue is serialized as one `batch`
envelope, sent to every open client, and queue and timer are cleared. -/
def flushBatch (st : BatchState α) : BatchState α × List (Frame α) :=
  if st.queue.isEmpty then (st, [])
  else (⟨[], false⟩, [Frame.batch st.queue])

/-- `broadcast(type, data, options)` (`src/lib/broadcast.js` lines 52-82).
`immediateOpt` is `options.immediate`.  A batchable message is appended to
the pending queue; reaching `MAX_BATCH_SIZE` clears the timer and flushes at
once, otherwise a flush timer is armed if none is outstanding.  A
non-batchable message is serialized and sent to every open client
immediately — the pending queue is left untouched. -/
def broadcast (st : BatchState α) (type : String) (data : α)
    (immediateOpt : Bool) : BatchState α × List (Frame α) :=
  let message : WsMsg α := ⟨type, data⟩
  let shouldBatch := !immediateOpt && !(immediateTypes.contains type)
  if shouldBatch && decide (BATCH_DELAY > 0) then
    let queue := st.queue ++ [message]
    if queue.length ≥ MAX_BATCH_SIZE then
      -- clearTimeout(messageBatch.timeout) if set, then flushBatch()
      flushBatch ⟨queue, false⟩
    else
      -- arm the flush timer when no timer handle is outstanding
      (⟨queue, true⟩, [])
  else
    (st, [Frame.single message])

/-- The flush timer fires (`setTimeout(flushBatch, BATCH_DELAY)`). -/
def timerFire (st : BatchState α) : BatchState α × List (Frame α) :=
  flushBatch st

/-! ## Delta state broadcasting (`src/lib/broadcast.js` lines 105-131)

`broadcastStateChanges(newState)` compares `JSON.stringify` of each
top-level value of `newState` against `lastBroadcastState`.  We embed each
top-level value by its serialized string: `newState` is an association list
of `(key, serializedValue)` and the snapshot is a map from keys to the
serialization last sent. -/

abbrev StateObj := List (String × String)

abbrev Snapshot := String → Option String

/-- The `delta` object built by the comparison loop: the keys of `newState`
whose serialization differs from the snapshot (a key absent from the
snapshot always differs, as `JSON.stringify(undefined)` is `undefined`). -/
def computeDelta (last : Snapshot) (newState : StateObj) : StateObj :=
  newState.filter fun kv => !(last kv.1 == some kv.2)

/-- `lastBroadcastState = { ...lastBroadcastState, ...delta }`: a key of the
delta takes its new value, every other key keeps its snapshot value. -/
def mergeSnapshot (last : Snapshot) (delta : StateObj) : Snapshot :=
  fun k =>
    match delta.lookup k with
    | some v => some v
    | none => last k

/-- `broadcastStateChanges(newState)` (`src/lib/broadcast.js` lines
114-131): build the delta; if any key changed, merge the delta into the
snapshot and `broadcastDelta(delta)`, which sends one immediate
`state_delta` message (`broadcastDelta` returns early on an empty delta and
otherwise calls `broadcast('state_delta', changes, { immediate: true })`). -/
def broadcastStateChanges (bst : BatchState StateObj) (last : Snapshot)
    (newState : StateObj) :
    BatchState StateObj × Snapshot × List (Frame StateObj) :=
  let delta := computeDelta last newState
  if delta.length > 0 then
    let last' := mergeSnapshot last delta
    let r := broadcast bst "state_delta" delta true
    (r.1, last', r.2)
  else
    (bst, last, [])

/-! ## Scraper deduplication (`src/lib/YouTubeChatScraper.js` lines 146-172)

Each parsed renderer yields a candidate message; `fetchMessages` checks its
id against `seenMessageIds` before emitting:

  if (msg && !this.seenMessageIds.has(msg.id)) {
    this.seenMessageIds.add(msg.id);
    messages.push(msg);
  }

`seenMessageIds` is a `Set`; we embed it as a list of ids guarded against
duplicate insertion, so its length is the set's size.  `fetchMessages` never
removes ids; the set is cleared only by `setVideoId`. -/

abbrev SeenSet := List String

/-- Process one parsed candidate against the seen set, threading the list of
emitted messages. -/
def dedupStep (acc : SeenSet × List ChatMsg) (m : ChatMsg) :
    SeenSet × List ChatMsg :=
  if acc.1.contains m.id then acc
  else (m.id :: acc.1, acc.2 ++ [m])

/-- One poll cycle of `fetchMessages`: run every parsed candidate of the
response through the dedup check, in response order. -/
def fetchCycle (seen : SeenSet) (parsed : List ChatMsg) :
    SeenSet × List ChatMsg :=
  parsed.foldl dedupStep (seen, [])

/-- A run of consecutive poll cycles (no intervening `setVideoId` reset):
`seenMessageIds` persists across cycles, the emissions concatenate. -/
def runCycles (seen : SeenSet) : List (List ChatMsg) → SeenSet × List ChatMsg
  | [] => (seen, [])
  | cyc :: rest =>
      let r := fetchCycle seen cyc
      let s := runCycles r.1 rest
      (s.1, r.2 ++ s.2)

/-- Number of emitted messages carrying a given source id. -/
def countById (x : String) (ms : List ChatMsg) : Nat :=
  (ms.filter fun m => m.id == x).length

/-! ## Scraper lifecycle (`src/lib/YouTubeChatScraper.js`)

The constructor fields (lines 9-19), minus the three callback slots, which
the embedding replaces by returning emitted messages/errors explicitly.
Note the class has no failure counter of any kind. -/

structure ScraperState where
  videoId : Option String
  continuation : Option String
  apiKey : Option String
  isRunning : Bool
  /-- `this.pollInterval`: `some n` is an installed `setInterval` handle
  firing every `n` ms, `none` a cleared handle. -/
  pollInterval : Option Nat
  seenMessageIds : SeenSet
  deriving DecidableEq

/-- The interval passed to `setInterval` in `start()`
(`src/lib/YouTubeChatScraper.js` line 319: "Poll for messages every 2.5
seconds"). -/
def startPollIntervalMs : Nat := 2500

/-- `setVideoId(urlOrId)` (lines 277-287) with the id already extracted:
store it, null the continuation and API key, clear `seenMessageIds`. -/
def setVideoId (st : ScraperState) (videoId : String) : ScraperState :=
  { st with
    videoId := some videoId
    continuation := none
    apiKey := none
    seenMessageIds := [] }

/-- Outcome of the `fetchInitialData` network call: `some (apiKey, cont)`
when both tokens were extracted from the page, `none` when the fetch failed
or a token was missing (the thrown error is caught and `false` returned). -/
abbrev InitOutcome := Option (String × String)

/-- `start()` (lines 292-322): refuse when already running, otherwise run
`fetchInitialData`; on success mark running and install the poll interval.
Returns the updated state and `start()`'s boolean result. -/
def scraperStart (st : ScraperState) (init : InitOutcome) :
    ScraperState × Bool :=
  if st.isRunning then (st, false)
  else
    match init with
    | none => (st, false)
    | some (key, cont) =>
        ({ st with
            apiKey := some key
            continuation := some cont
            isRunning := true
            pollInterval := some startPollIntervalMs }, true)

/-- `stop()` (lines 327-334): clear the interval and the running flag. -/
def scraperStop (st : ScraperState) : ScraperState :=
  { st with pollInterval := none, isRunning := false }

/-- Outcome of one poll's network call: a parsed action list, or a thrown
error with its message string. -/
inductive PollOutcome where
  | success (parsed : List ChatMsg)
  | failure (errMsg : String)

/-- One tick of the `setInterval` callback (lines 312-319) together with
`fetchMessages` (lines 106-180).  On success the dedup window is advanced
and the fresh messages are handed to `messageCallback`; on a thrown error
`errorCallback(error)` fires and `fetchMessages` returns `[]`.  Nothing in
either path touches `isRunning` or the interval handle.  Returns
(state, messages delivered to `messageCallback`, error messages delivered
to `errorCallback`). -/
def pollTick (st : ScraperState) (outcome : PollOutcome) :
    ScraperState × List ChatMsg × List String :=
  match outcome with
  | .success parsed =>
      let r := fetchCycle st.seenMessageIds parsed
      ({ st with seenMessageIds := r.1 }, r.2, [])
  | .failure e => (st, [], [e])

/-- A run of consecutive failing polls. -/
def pollFailures (st : ScraperState) (errs : List String) : ScraperState :=
  errs.foldl (fun s e => (pollTick s (.failure e)).1) st

/-! ## Control surface (`src/unnamed/part_001` `handleWebSocketMessage`,
mirrored by the inline handler of `src/server.js`)

The mutable module state `state` (`src/lib/state.js`) restricted to the
fields the embedded handlers touch, together with the shared scraper
instance.  The ticker/slideshow blocks are not involved in any claim and
are omitted. -/

structure ServerState where
  queue : List ChatMsg
  pinnedMessage : Option ChatMsg
  isConnected : Bool
  videoId : Option String
  scraper : ScraperState
  deriving DecidableEq

/-- The outbound broadcasts issued by the embedded handlers.  All four types
are in `immediateTypes`, so each is one single-payload frame to every open
client.  `unpin`-style notifications are `broadcast('pin', {message: null})`
in this code, i.e. `SrvEvent.pin none`. -/
inductive SrvEvent where
  | status (connected : Bool) (videoId : Option String)
  | error (message : String)
  | pin (message : Option ChatMsg)
  | queueUpdate (queue : List ChatMsg)
  deriving DecidableEq

/-- `case 'connect'` (`src/unnamed/part_001` lines 178-199).  `extracted` is
the result of `extractVideoId(message.url)` inside `setVideoId` (`none`
makes `setVideoId` throw, caught by the handler's `catch` which broadcasts
the error message); `init` is the `fetchInitialData` outcome inside
`scraper.start()`.  Error events emitted through the scraper's
`errorCallback` are not modelled; only the handler's own broadcasts are
returned. -/
def handleConnect (st : ServerState) (extracted : Option String)
    (init : InitOutcome) : ServerState × List SrvEvent :=
  match extracted with
  | none => (st, [.error "Invalid YouTube URL or video ID"])
  | some vid =>
      let scr := setVideoId st.scraper vid
      let r := scraperStart scr init
      let st := { st with scraper := r.1 }
      if r.2 then
        ({ st with isConnected := true, videoId := some vid },
         [.status true (some vid)])
      else
        (st,
         [.error "Failed to connect to video. Make sure it is a live stream with chat enabled."])

/-- `case 'pin_message'` (`src/unnamed/part_001` lines 208-221, identical to
`src/server.js` lines 527-534 up to logging): look the id up in the queue;
pin and broadcast when found, otherwise only log. -/
def handlePinMessage (st : ServerState) (messageId : String) :
    ServerState × List SrvEvent :=
  match st.queue.find? (fun m => m.id == messageId) with
  | some msgToPin =>
      ({ st with pinnedMessage := some msgToPin }, [.pin (some msgToPin)])
  | none => (st, [])

/-! ## Concrete scenario inputs used by the counterexamples -/

/-- A concrete chat message attributed to the currently active stream. -/
def pinnedFromA : ChatMsg :=
  ⟨"msgA1", "alice", "hello from stream A", false⟩

/-- A server state connected to stream `"AAAAAAAAAAA"` with `pinnedFromA`
pinned. -/
def connectedStateA : ServerState :=
  { queue := [pinnedFromA]
    pinnedMessage := some pinnedFromA
    isConnected := true
    videoId := some "AAAAAAAAAAA"
    scraper :=
      { videoId := some "AAAAAAAAAAA"
        continuation := some "contA"
        apiKey := some "keyA"
        isRunning := true
        pollInterval := some startPollIntervalMs
        seenMessageIds := ["msgA1"] } }

/-- A scraper that is not (or no longer) running, with a video id already
set by `setVideoId`. -/
def idleScraper : ScraperState :=
  { videoId := some "BBBBBBBBBBB"
    continuation := none
    apiKey := none
    isRunning := false
    pollInterval := none
    seenMessageIds := [] }

/-- The batched/immediate emission scenario of the batch-ordering property:
three events of types `ta`, `tb`, `tc`, then one event of type `td`, all
before the 50 ms flush timer fires; then the timer fires.  Returns the
frames an open client receives, in order. -/
def orderingRun (ta tb tc td : String) (a b c d : α) : List (Frame α) :=
  let r1 := broadcast (⟨[], false⟩ : BatchState α) ta a false
  let r2 := broadcast r1.1 tb b false
  let r3 := broadcast r2.1 tc c false
  let r4 := broadcast r3.1 td d false
  let r5 := timerFire r4.1
  r1.2 ++ r2.2 ++ r3.2 ++ r4.2 ++ r5.2

/-- The concrete instance: batchable `message_add` events `1, 2, 3`, then
the immediate-classified `status` event `4`. -/
def orderingScenarioFrames : List (Frame Nat) :=
  orderingRun "message_add" "message_add" "message_add" "status" 1 2 3 4

/-- `x` is observed strictly before `y` in the frame sequence `tr`. -/
def observedBefore (tr : List (Frame Nat)) (x y : Frame Nat) : Prop :=
  tr.indexOf x < tr.indexOf y

instance (tr : List (Frame Nat)) (x y : Frame Nat) :
    Decidable (observedBefore tr x y) := by
  unfold observedBefore; infer_instance

/-- `n` chat messages with pairwise distinct ids. -/
def mkDistinctMsgs (n : Nat) : List ChatMsg :=
  (List.range n).map fun i =>
    ⟨String.mk (List.replicate i 'a'), "bot", "spam", false⟩

/-- A concrete last-broadcast snapshot: `queue` was last sent as `"qOld"`,
`pinnedMessage` as `"null"`. -/
def sampleSnapshot : Snapshot := fun key =>
  if key = "queue" then some "qOld"
  else if key = "pinnedMessage" then some "null" else none

/-- A concrete new state differing from `sampleSnapshot` in exactly the
`queue` key. -/
def sampleState : StateObj := [("queue", "qNew"), ("pinnedMessage", "null")]

/-- A running scraper state, as left by a successful `start()`. -/
def runningScraper : ScraperState :=
  { videoId := some "AAAAAAAAAAA"
    continuation := some "contA"
    apiKey := some "keyA"
    isRunning := true
    pollInterval := some startPollIntervalMs
    seenMessageIds := [] }

/-! ## Theorems -/

/-- C10: a `pin_message` control message whose `messageId` matches no item
in the queue leaves the whole server state unchanged and broadcasts
nothing. -/
theorem pin_unknown_id_noop (st : ServerState) (mid : String)
    (h : ∀ m ∈ st.queue, m.id ≠ mid) :
    handlePinMessage st mid = (st, []) := by
  unfold handlePinMessage
  have hfind : st.queue.find? (fun m => m.id == mid) = none := by
    apply List.find?_eq_none.mpr
    intro m hm
    simpa using h m hm
  rw [hfind]

/-- Witness for C10 at a concrete state and unknown id. -/
theorem pin_unknown_id_noop_witness :
    (∀ m ∈ connectedStateA.queue, m.id ≠ "nosuchid") ∧
    handlePinMessage connectedStateA "nosuchid" = (connectedStateA, []) :=
  ⟨by decide, pin_unknown_id_noop connectedStateA "nosuchid" (by decide)⟩

/-- C1 fails on the code: with a pinned message produced while connected to
stream `AAAAAAAAAAA` (not exempt — no exempt marking exists), handling a
`connect` for stream `BBBBBBBBBBB` leaves the pinned message in place and
broadcasts no `pin`/`unpin` event at all (the scraper is already running,
so `start()` even returns `false` and the handler reports an error). -/
theorem connect_keeps_pin_cex :
    (handleConnect connectedStateA (some "BBBBBBBBBBB")
        (some ("keyB", "contB"))).1.pinnedMessage = some pinnedFromA ∧
    (∀ p, SrvEvent.pin p ∉
      (handleConnect connectedStateA (some "BBBBBBBBBBB")
        (some ("keyB", "contB"))).2) := by
  constructor
  · rfl
  · have hev : (handleConnect connectedStateA (some "BBBBBBBBBBB")
        (some ("keyB", "contB"))).2 =
        [.error "Failed to connect to video. Make sure it is a live stream with chat enabled."] :=
      rfl
    intro p
    rw [hev]
    simp

/-- C1 amended: the `connect` control path never touches the pinned message
or the queue and never broadcasts a pin/unpin event, whatever the extracted
video id and whatever the network outcome; only the scraper's dedup set and
tokens are reset by `setVideoId`. -/
theorem connect_preserves_pin_and_queue (st : ServerState)
    (extracted : Option String) (init : InitOutcome) :
    (handleConnect st extracted init).1.pinnedMessage = st.pinnedMessage ∧
    (handleConnect st extracted init).1.queue = st.queue ∧
    ∀ p, SrvEvent.pin p ∉ (handleConnect st extracted init).2 := by
  unfold handleConnect
  cases extracted with
  | none => simp
  | some vid =>
      by_cases hrun : (scraperStart (setVideoId st.scraper vid) init).2 <;>
        simp [hrun]

/-- C8 fails on the code: ten consecutive failing polls leave a running
scraper exactly as it was (still running, interval still installed), and a
single HTTP 404 failure does not stop it either. -/
theorem poll_failures_never_stop_cex :
    pollFailures runningScraper (List.replicate 10 "HTTP error 500") =
      runningScraper ∧
    (pollFailures runningScraper
        (List.replicate 10 "HTTP error 500")).isRunning = true ∧
    (pollTick runningScraper
        (.failure "Request failed with status code 404")).1.isRunning
      = true := by
  refine ⟨by decide, by decide, by decide⟩

/-- C8 amended: a failing poll only reports the error through the error
callback and yields no messages; the scraper state — `isRunning`, the
interval handle, the dedup set — is completely unchanged, for any number of
consecutive failures.  There is no failure counter and no fatal
classification; the poller stops only when `stop()` is called. -/
theorem poll_failure_state_unchanged (st : ScraperState) :
    (∀ e, pollTick st (.failure e) = (st, [], [e])) ∧
    (∀ errs, pollFailures st errs = st) := by
  constructor
  · intro e
    rfl
  · intro errs
    induction errs with
    | nil => rfl
    | cons e rest ih => simp [pollFailures, pollTick] at ih ⊢

/-- C9 fails on the code: the interval installed by a successful `start()`
is not 2000 ms. -/
theorem poll_interval_not_2000_cex :
    (scraperStart idleScraper (some ("keyB", "contB"))).1.pollInterval ≠
      some 2000 := by
  decide

/-- C9 amended: after a successful `start()` the poll interval is the fixed
(hardcoded, not configurable) 2500 ms. -/
theorem poll_interval_is_2500 (st : ScraperState) (key cont : String)
    (h : st.isRunning = false) :
    (scraperStart st (some (key, cont))).2 = true ∧
    (scraperStart st (some (key, cont))).1.pollInterval = some 2500 := by
  unfold scraperStart
  rw [h]
  exact ⟨rfl, rfl⟩

/-- Witness for C9 at a concrete idle scraper. -/
theorem poll_interval_is_2500_witness :
    idleScraper.isRunning = false ∧
    (scraperStart idleScraper (some ("keyB", "contB"))).2 = true ∧
    (scraperStart idleScraper
        (some ("keyB", "contB"))).1.pollInterval = some 2500 :=
  ⟨rfl, (poll_interval_is_2500 idleScraper "keyB" "contB" rfl).1,
    (poll_interval_is_2500 idleScraper "keyB" "contB" rfl).2⟩

/-- C2 fails on the code: batchable events `1, 2, 3` (`message_add`)
followed by the immediate event `4` (`status`) emitted before the flush
timer fires are observed as `4` first and the batch `1, 2, 3` second — the
immediate send does not flush the pending batch. -/
theorem immediate_overtakes_batch_cex :
    orderingScenarioFrames =
      [Frame.single ⟨"status", 4⟩,
       Frame.batch [⟨"message_add", 1⟩, ⟨"message_add", 2⟩,
         ⟨"message_add", 3⟩]] ∧
    ¬ observedBefore orderingScenarioFrames
        (Frame.batch [⟨"message_add", 1⟩, ⟨"message_add", 2⟩,
          ⟨"message_add", 3⟩])
        (Frame.single ⟨"status", 4⟩) ∧
    observedBefore orderingScenarioFrames
        (Frame.single ⟨"status", 4⟩)
        (Frame.batch [⟨"message_add", 1⟩, ⟨"message_add", 2⟩,
          ⟨"message_add", 3⟩]) := by
  refine ⟨by decide, by decide, by decide⟩

/-- C2 amended: emitting three events of batchable types followed by one
event of an immediate-classified type, all before the 50 ms flush timer
fires, results in every open client observing the immediate event first and
the batch `a, b, c` second, when the timer fires: the immediate send
bypasses the pending batch without flushing it. -/
theorem immediate_before_pending_batch {α : Type} (ta tb tc td : String)
    (a b c d : α)
    (hta : immediateTypes.contains ta = false)
    (htb : immediateTypes.contains tb = false)
    (htc : immediateTypes.contains tc = false)
    (htd : immediateTypes.contains td = true) :
    orderingRun ta tb tc td a b c d =
      [Frame.single ⟨td, d⟩,
       Frame.batch [⟨ta, a⟩, ⟨tb, b⟩, ⟨tc, c⟩]] := by
  have hta' : ¬ ta ∈ immediateTypes := by simpa using hta
  have htb' : ¬ tb ∈ immediateTypes := by simpa using htb
  have htc' : ¬ tc ∈ immediateTypes := by simpa using htc
  have htd' : td ∈ immediateTypes := by simpa using htd
  simp [orderingRun, broadcast, timerFire, flushBatch, hta', htb', htc',
    htd', MAX_BATCH_SIZE, BATCH_DELAY]

/-- Witness for C2's amended theorem at the concrete scenario. -/
theorem immediate_before_pending_batch_witness :
    immediateTypes.contains "message_add" = false ∧
    immediateTypes.contains "status" = true ∧
    orderingRun "message_add" "message_add" "message_add" "status"
        (1 : Nat) 2 3 4 =
      [Frame.single ⟨"status", 4⟩,
       Frame.batch [⟨"message_add", 1⟩, ⟨"message_add", 2⟩,
         ⟨"message_add", 3⟩]] :=
  ⟨by decide, by decide,
    immediate_before_pending_batch "message_add" "message_add"
      "message_add" "status" 1 2 3 4 (by decide) (by decide) (by decide)
      (by decide)⟩

/-- Keeping the last `n` entries commutes with appending: cutting a list to
its last `n` entries and then appending more entries before cutting again
gives the same result as appending first and cutting once. -/
theorem drop_last_append {α : Type} (n : Nat) (xs ys : List α) :
    ((xs.drop (xs.length - n)) ++ ys).drop
        (((xs.drop (xs.length - n)) ++ ys).length - n)
      = (xs ++ ys).drop ((xs ++ ys).length - n) := by
  rcases le_or_lt xs.length n with hle | hgt
  · have h0 : xs.length - n = 0 := by omega
    simp [h0]
  · have ht : (xs.drop (xs.length - n)).length = n := by
      rw [List.length_drop]; omega
    rcases le_or_lt n ys.length with hys | hys
    · rw [List.drop_append_eq_append_drop, List.drop_append_eq_append_drop]
      have hA : ((xs.drop (xs.length - n)) ++ ys).length - n =
          n + (ys.length - n) := by
        rw [List.length_append, ht]; omega
      have hB : (xs ++ ys).length - n = xs.length + (ys.length - n) := by
        rw [List.length_append]; omega
      rw [hA, hB]
      rw [List.drop_eq_nil_of_le (by omega : (xs.drop (xs.length - n)).length ≤ n + (ys.length - n))]
      rw [List.drop_eq_nil_of_le (by omega : xs.length ≤ xs.length + (ys.length - n))]
      simp [ht]
    · rw [List.drop_append_eq_append_drop, List.drop_append_eq_append_drop]
      have hA : ((xs.drop (xs.length - n)) ++ ys).length - n = ys.length := by
        rw [List.length_append, ht]; omega
      have hB : (xs ++ ys).length - n = (xs.length - n) + ys.length := by
        rw [List.length_append]; omega
      rw [hA, hB, List.drop_drop]
      have h1 : ys.length - (xs.drop (xs.length - n)).length = 0 := by
        rw [ht]; omega
      have h2 : (xs.length - n) + ys.length - xs.length = 0 := by omega
      rw [h1, h2]

/-- `pushCapped` is "append, then keep the last `QUEUE_CAP` entries", as
long as the queue respected the cap before the push. -/
theorem pushCapped_eq_drop (q : List ChatMsg) (m : ChatMsg) :
    pushCapped q m = (q ++ [m]).drop ((q ++ [m]).length - QUEUE_CAP) := by
  simp only [pushCapped]
  split
  · rfl
  · next hc =>
      have h0 : (q ++ [m]).length - QUEUE_CAP = 0 := by
        simp at hc ⊢
        omega
      rw [h0, List.drop_zero]

/-- Folding `pushCapped` over a list of insertions keeps exactly the last
`QUEUE_CAP` entries of "initial queue, then insertions in order". -/
theorem foldl_pushCapped (msgs : List ChatMsg) :
    ∀ q : List ChatMsg, q.length ≤ QUEUE_CAP →
      List.foldl pushCapped q msgs =
        (q ++ msgs).drop ((q ++ msgs).length - QUEUE_CAP) := by
  induction msgs with
  | nil =>
      intro q h
      have h0 : q.length - QUEUE_CAP = 0 := by omega
      simp [h0]
  | cons m ms ih =>
      intro q h
      have hlen : (pushCapped q m).length ≤ QUEUE_CAP := by
        rw [pushCapped_eq_drop q m, List.length_drop]
        omega
      rw [List.foldl_cons, ih _ hlen, pushCapped_eq_drop q m,
        drop_last_append QUEUE_CAP (q ++ [m]) ms]
      simp

/-- C4: after more than 100 insertions into the message queue (each
insertion being `push` followed by `slice(-100)` beyond the cap, as in the
scraper's `onMessage` callback and the `add_to_queue` handler), the queue
holds exactly 100 entries, namely the 100 most recently inserted in
oldest-first order. -/
theorem queue_cap_invariant (msgs : List ChatMsg)
    (h : msgs.length > QUEUE_CAP) :
    List.foldl pushCapped [] msgs =
      msgs.drop (msgs.length - QUEUE_CAP) ∧
    (List.foldl pushCapped [] msgs).length = QUEUE_CAP := by
  have heq := foldl_pushCapped msgs [] (by simp [QUEUE_CAP])
  simp at heq
  refine ⟨heq, ?_⟩
  rw [heq, List.length_drop]
  omega

/-- Witness for C4 with 101 distinct insertions. -/
theorem queue_cap_invariant_witness :
    (mkDistinctMsgs 101).length > QUEUE_CAP ∧
    List.foldl pushCapped [] (mkDistinctMsgs 101) =
      (mkDistinctMsgs 101).drop ((mkDistinctMsgs 101).length - QUEUE_CAP) ∧
    (List.foldl pushCapped [] (mkDistinctMsgs 101)).length = QUEUE_CAP := by
  have hlen : (mkDistinctMsgs 101).length > QUEUE_CAP := by
    simp [mkDistinctMsgs, QUEUE_CAP]
  exact ⟨hlen, (queue_cap_invariant _ hlen).1, (queue_cap_invariant _ hlen).2⟩

/-- Running the rate-limit check repeatedly inside a live window: the
counter climbs by one per call and each call allows exactly while the
incremented count stays within `RATE_LIMIT_MAX`. -/
theorem runRateLimit_window (ts : List Nat) :
    ∀ (m : RLMap) (id c r : Nat), m id = some ⟨c, r⟩ → (∀ t ∈ ts, t ≤ r) →
      (runRateLimit m id ts).1 =
        (List.range ts.length).map
          (fun i => !(c + i + 1 > RATE_LIMIT_MAX)) ∧
      (runRateLimit m id ts).2 id = some ⟨c + ts.length, r⟩ := by
  induction ts with
  | nil =>
      intro m id c r hm hts
      simp [runRateLimit, hm]
  | cons t ts ih =>
      intro m id c r hm hts
      have hlive : ¬ t > r := by
        have := hts t (by simp)
        omega
      have hstep : checkRateLimit m id t =
          (!(c + 1 > RATE_LIMIT_MAX),
           fun j => if j = id then some ⟨c + 1, r⟩ else m j) := by
        simp [checkRateLimit, hm, hlive]
      have hm' : (fun j => if j = id then some (⟨c + 1, r⟩ : RLEntry) else m j) id
          = some ⟨c + 1, r⟩ := by simp
      have hts' : ∀ u ∈ ts, u ≤ r := fun u hu => hts u (by simp [hu])
      have hrec := ih (fun j => if j = id then some ⟨c + 1, r⟩ else m j)
        id (c + 1) r hm' hts'
      constructor
      · show (checkRateLimit m id t).1 ::
            (runRateLimit (checkRateLimit m id t).2 id ts).1 = _
        rw [hstep]
        simp only []
        rw [hrec.1, List.length_cons, List.range_succ_eq_map,
          List.map_cons, List.map_map]
        congr 1
        apply List.map_congr_left
        intro a _
        have harith : c + 1 + a + 1 = c + (a + 1) + 1 := by omega
        simp [harith]
      · show (runRateLimit (checkRateLimit m id t).2 id ts).2 id = _
        rw [hstep]
        simp only []
        rw [hrec.2, List.length_cons]
        congr 2
        omega

/-- C5: for a connection id with no open window, 100 calls inside one
1000 ms window all allow, the 101st call inside the same window denies, and
the first call after the window has elapsed resets the window and allows
again. -/
theorem rate_limit_boundary (m : RLMap) (id t0 : Nat) (ts : List Nat)
    (t' : Nat) (hfresh : m id = none)
    (hlen : ts.length = RATE_LIMIT_MAX)
    (hts : ∀ t ∈ ts, t ≤ t0 + RATE_LIMIT_WINDOW)
    (ht' : t' > t0 + RATE_LIMIT_WINDOW) :
    (runRateLimit m id (t0 :: ts)).1 =
      List.replicate RATE_LIMIT_MAX true ++ [false] ∧
    (checkRateLimit (runRateLimit m id (t0 :: ts)).2 id t').1 = true := by
  have hstep : checkRateLimit m id t0 =
      (!(0 + 1 > RATE_LIMIT_MAX),
       fun j => if j = id then some ⟨0 + 1, t0 + RATE_LIMIT_WINDOW⟩
         else m j) := by
    simp [checkRateLimit, hfresh]
  have hm1 : (fun j => if j = id then
        some (⟨0 + 1, t0 + RATE_LIMIT_WINDOW⟩ : RLEntry) else m j) id
      = some ⟨1, t0 + RATE_LIMIT_WINDOW⟩ := by simp
  have hwin := runRateLimit_window ts
    (fun j => if j = id then some ⟨0 + 1, t0 + RATE_LIMIT_WINDOW⟩ else m j)
    id 1 (t0 + RATE_LIMIT_WINDOW) hm1 hts
  constructor
  · show (checkRateLimit m id t0).1 ::
        (runRateLimit (checkRateLimit m id t0).2 id ts).1 = _
    rw [hstep]
    simp only []
    rw [hwin.1, hlen]
    decide
  · show (checkRateLimit
        (runRateLimit (checkRateLimit m id t0).2 id ts).2 id t').1 = true
    rw [hstep]
    simp only []
    have hfin := hwin.2
    simp [checkRateLimit, hfin, ht', RATE_LIMIT_MAX]

/-- Witness for C5: 101 calls at time 0 for a fresh client, then one call
at time 1001. -/
theorem rate_limit_boundary_witness :
    (List.replicate 100 0).length = RATE_LIMIT_MAX ∧
    (∀ t ∈ List.replicate 100 0, t ≤ 0 + RATE_LIMIT_WINDOW) ∧
    (runRateLimit (fun _ => none) 7 (0 :: List.replicate 100 0)).1 =
      List.replicate RATE_LIMIT_MAX true ++ [false] ∧
    (checkRateLimit
        (runRateLimit (fun _ => none) 7 (0 :: List.replicate 100 0)).2
        7 1001).1 = true := by
  have h := rate_limit_boundary (fun _ => none) 7 0 (List.replicate 100 0)
    1001 rfl (by decide) (by decide) (by decide)
  exact ⟨by decide, by decide, h.1, h.2⟩

/-- The dedup fold only appends to the emitted-message accumulator: running
it with accumulator `o` is running it with an empty accumulator and
prepending `o`. -/
theorem foldl_dedupStep_out (parsed : List ChatMsg) :
    ∀ (s : SeenSet) (o : List ChatMsg),
      parsed.foldl dedupStep (s, o) =
        ((parsed.foldl dedupStep (s, [])).1,
         o ++ (parsed.foldl dedupStep (s, [])).2) := by
  induction parsed with
  | nil => intro s o; simp
  | cons m ms ih =>
      intro s o
      by_cases hc : s.contains m.id
      · simp only [List.foldl_cons, dedupStep, hc, if_pos]
        exact ih s o
      · simp only [List.foldl_cons, dedupStep, hc, if_neg,
          Bool.false_eq_true, not_false_iff]
        rw [ih (m.id :: s) (o ++ [m]), ih (m.id :: s) ([] ++ [m])]
        simp

/-- Unfolding one step of a fetch cycle. -/
theorem fetchCycle_cons (s : SeenSet) (m : ChatMsg) (ms : List ChatMsg) :
    fetchCycle s (m :: ms) =
      if m.id ∈ s then fetchCycle s ms
      else ((fetchCycle (m.id :: s) ms).1,
        m :: (fetchCycle (m.id :: s) ms).2) := by
  by_cases hc : m.id ∈ s
  · rw [if_pos hc]
    have hstep : dedupStep (s, ([] : List ChatMsg)) m = (s, []) := by
      simp [dedupStep, hc]
    unfold fetchCycle
    rw [List.foldl_cons, hstep]
  · rw [if_neg hc]
    have hstep : dedupStep (s, ([] : List ChatMsg)) m = (m.id :: s, [m]) := by
      simp [dedupStep, hc]
    unfold fetchCycle
    rw [List.foldl_cons, hstep, foldl_dedupStep_out ms (m.id :: s) [m]]
    simp

/-- A fetch cycle over a concatenation is two consecutive fetch cycles. -/
theorem fetchCycle_append (s : SeenSet) (xs ys : List ChatMsg) :
    fetchCycle s (xs ++ ys) =
      ((fetchCycle (fetchCycle s xs).1 ys).1,
       (fetchCycle s xs).2 ++ (fetchCycle (fetchCycle s xs).1 ys).2) := by
  unfold fetchCycle
  rw [List.foldl_append]
  rw [foldl_dedupStep_out ys (xs.foldl dedupStep (s, [])).1
    (xs.foldl dedupStep (s, [])).2]

/-- Because `seenMessageIds` persists across cycles, a run of poll cycles
emits exactly what one cycle over the concatenated input would emit. -/
theorem runCycles_eq_join (cycles : List (List ChatMsg)) :
    ∀ s : SeenSet, runCycles s cycles = fetchCycle s cycles.flatten := by
  induction cycles with
  | nil => intro s; rfl
  | cons c cs ih =>
      intro s
      rw [List.flatten_cons, fetchCycle_append, runCycles]
      rw [ih (fetchCycle s c).1]

/-- How many messages with a given id one fetch cycle emits: none when the
id is already in the dedup window, at most one otherwise. -/
theorem countById_fetchCycle (x : String) (ms : List ChatMsg) :
    ∀ s : SeenSet,
      countById x (fetchCycle s ms).2 =
        if x ∈ s then 0 else min 1 (countById x ms) := by
  induction ms with
  | nil =>
      intro s
      simp [fetchCycle, countById]
  | cons m ms ih =>
      intro s
      rw [fetchCycle_cons]
      by_cases hc : m.id ∈ s
      · rw [if_pos hc, ih s]
        by_cases hx : x ∈ s
        · simp [hx]
        · have hne : (m.id == x) = false := by
            apply beq_false_of_ne
            intro he
            exact hx (he ▸ hc)
          simp [hx, countById, List.filter_cons, hne]
      · rw [if_neg hc]
        by_cases hx : m.id = x
        · have hbeq : (m.id == x) = true := by simp [hx]
          have hxs : ¬ x ∈ s := by rw [← hx]; exact hc
          have hmem : x ∈ m.id :: s := by simp [hx]
          have hrest := ih (m.id :: s)
          rw [if_pos hmem] at hrest
          rw [if_neg hxs]
          simp only [countById, List.filter_cons, hbeq, if_pos,
            List.length_cons] at hrest ⊢
          rw [hrest]
          omega
        · have hne : (m.id == x) = false := beq_false_of_ne hx
          have hiff : (x ∈ m.id :: s) ↔ x ∈ s := by
            constructor
            · intro h
              rcases List.mem_cons.mp h with h1 | h1
              · exact absurd h1.symm hx
              · exact h1
            · intro h; exact List.mem_cons_of_mem _ h
          have hrest := ih (m.id :: s)
          simp only [countById, List.filter_cons, hne, if_neg,
            Bool.false_eq_true, not_false_iff, List.length_cons] at hrest ⊢
          rw [hrest]
          by_cases hx2 : x ∈ s
          · simp [hx2, hiff.mpr hx2]
          · have hx3 : ¬ x ∈ m.id :: s := fun h => hx2 (hiff.mp h)
            simp [hx2, hx3]

/-- C6: a source id that is not in the dedup window and appears at least
twice across the poll cycles of a run (in one cycle or across cycles,
without an intervening stream reset) yields exactly one emitted message
with that id; the duplicates are dropped. -/
theorem dedup_idempotence (seen₀ : SeenSet) (cycles : List (List ChatMsg))
    (x : String) (h0 : ¬ x ∈ seen₀)
    (h2 : 2 ≤ countById x cycles.flatten) :
    countById x (runCycles seen₀ cycles).2 = 1 := by
  rw [runCycles_eq_join cycles seen₀, countById_fetchCycle x _ seen₀,
    if_neg h0]
  omega

/-- Witness for C6: id `"a"` delivered twice in the first cycle and once
more in the second. -/
theorem dedup_idempotence_witness :
    ¬ "a" ∈ ([] : SeenSet) ∧
    2 ≤ countById "a"
      ([[⟨"a", "u", "m1", false⟩, ⟨"a", "u", "m2", false⟩],
        [⟨"a", "u", "m3", false⟩]] : List (List ChatMsg)).flatten ∧
    countById "a"
      (runCycles []
        [[⟨"a", "u", "m1", false⟩, ⟨"a", "u", "m2", false⟩],
         [⟨"a", "u", "m3", false⟩]]).2 = 1 :=
  ⟨by decide, by decide,
    dedup_idempotence [] _ "a" (by decide) (by decide)⟩

/-- A fetch cycle never removes ids from the dedup window. -/
theorem fetchCycle_seen_mono (ms : List ChatMsg) :
    ∀ s : SeenSet, s ⊆ (fetchCycle s ms).1 := by
  induction ms with
  | nil => intro s; simp [fetchCycle]
  | cons m ms ih =>
      intro s
      rw [fetchCycle_cons]
      by_cases hc : m.id ∈ s
      · rw [if_pos hc]; exact ih s
      · rw [if_neg hc]
        exact fun y hy => ih (m.id :: s) (List.mem_cons_of_mem _ hy)

/-- Fresh, pairwise-distinct ids each grow the dedup window by one. -/
theorem fetchCycle_fresh_length (ms : List ChatMsg) :
    ∀ s : SeenSet, (ms.map (fun m => m.id)).Nodup →
      (∀ m ∈ ms, ¬ m.id ∈ s) →
      (fetchCycle s ms).1.length = s.length + ms.length := by
  induction ms with
  | nil => intro s _ _; simp [fetchCycle]
  | cons m ms ih =>
      intro s hnd hfresh
      have hm : ¬ m.id ∈ s := hfresh m (by simp)
      rw [fetchCycle_cons, if_neg hm]
      have hnd2 : (∀ m' ∈ ms, ¬ m'.id = m.id) ∧
          (ms.map (fun m => m.id)).Nodup := by
        simpa using hnd
      have hfresh' : ∀ m' ∈ ms, ¬ m'.id ∈ m.id :: s := by
        intro m' hm' hmem
        rcases List.mem_cons.mp hmem with h1 | h1
        · exact hnd2.1 m' hm' h1
        · exact hfresh m' (by simp [hm']) h1
      rw [ih (m.id :: s) hnd2.2 hfresh']
      simp
      omega

/-- The ids generated by `mkDistinctMsgs` are pairwise distinct. -/
theorem mkDistinctMsgs_ids_nodup (n : Nat) :
    ((mkDistinctMsgs n).map (fun m => m.id)).Nodup := by
  have hinj : Function.Injective
      (fun i : Nat => String.mk (List.replicate i 'a')) := by
    intro i j h
    have h2 := congrArg String.data h
    simpa using h2
  have : (mkDistinctMsgs n).map (fun m => m.id) =
      (List.range n).map (fun i => String.mk (List.replicate i 'a')) := by
    simp [mkDistinctMsgs]
  rw [this]
  exact (List.nodup_range n).map hinj

/-- C7 fails on the code: `seenMessageIds` is not trimmed anywhere — after
5001 distinct fresh ids the window holds all 5001 of them, exceeding any
5000-cap, and nothing is evicted (the documented design would have trimmed
it to the most recent 2500). -/
theorem seen_set_unbounded_cex :
    (fetchCycle [] (mkDistinctMsgs 5001)).1.length = 5001 ∧
    ¬ (fetchCycle [] (mkDistinctMsgs 5001)).1.length ≤ 5000 := by
  have h := fetchCycle_fresh_length (mkDistinctMsgs 5001) []
    (mkDistinctMsgs_ids_nodup 5001) (by simp)
  have hlen : (mkDistinctMsgs 5001).length = 5001 := by
    simp [mkDistinctMsgs]
  rw [h, hlen]
  simp

/-- C7 amended: the dedup window is unbounded: a fetch cycle never evicts
an id (the previous window is always retained), and `n` fresh distinct ids
grow it to exactly size `n`, for every `n`.  It is cleared only wholesale,
by `setVideoId`. -/
theorem seen_set_never_evicts_and_grows :
    (∀ (s : SeenSet) (ms : List ChatMsg), s ⊆ (fetchCycle s ms).1) ∧
    (∀ n : Nat, (fetchCycle [] (mkDistinctMsgs n)).1.length = n) ∧
    (∀ (st : ScraperState) (v : String),
      (setVideoId st v).seenMessageIds = []) := by
  refine ⟨fun s ms => fetchCycle_seen_mono ms s, fun n => ?_, fun st v => rfl⟩
  have h := fetchCycle_fresh_length (mkDistinctMsgs n) []
    (mkDistinctMsgs_ids_nodup n) (by simp)
  rw [h]
  simp [mkDistinctMsgs]

/-- Looking up a key that does not occur in an association list. -/
theorem lookup_none_of_not_mem_keys (l : StateObj) (k : String)
    (h : ¬ k ∈ l.map Prod.fst) : l.lookup k = none := by
  induction l with
  | nil => rfl
  | cons a rest ih =>
      obtain ⟨a1, a2⟩ := a
      simp only [List.map_cons, List.mem_cons, not_or] at h
      have hk : (k == a1) = false := beq_eq_false_iff_ne.mpr h.1
      simp [List.lookup, hk, ih h.2]

/-- In an association list with pairwise-distinct keys, looking a key up in
a filtered copy finds that key's (unique) value exactly when the filter
kept its entry. -/
theorem lookup_filter_nodup (S : StateObj) (p : String × String → Bool)
    (k v : String) :
    (S.map Prod.fst).Nodup → (k, v) ∈ S →
      (S.filter p).lookup k = if p (k, v) = true then some v else none := by
  induction S with
  | nil => intro _ hmem; cases hmem
  | cons a rest ih =>
      intro hnd hmem
      obtain ⟨a1, a2⟩ := a
      have hnd2 : ¬ a1 ∈ rest.map Prod.fst ∧
          (rest.map Prod.fst).Nodup := by
        simpa using hnd
      rcases List.mem_cons.mp hmem with he | hr
      · rw [Prod.mk.injEq] at he
        obtain ⟨rfl, rfl⟩ := he
        cases hp : p (k, v) with
        | true => simp [List.filter_cons, hp, List.lookup]
        | false =>
            have hout : ¬ k ∈ (rest.filter p).map Prod.fst := by
              intro hmf
              rcases List.mem_map.mp hmf with ⟨b, hb, hbe⟩
              exact hnd2.1 (hbe ▸
                List.mem_map_of_mem Prod.fst (List.mem_of_mem_filter hb))
            simp [List.filter_cons, hp,
              lookup_none_of_not_mem_keys _ _ hout]
      · have hkne : (k == a1) = false := by
          apply beq_eq_false_iff_ne.mpr
          intro he
          exact hnd2.1 (he ▸ List.mem_map_of_mem Prod.fst hr)
        cases hp : p (a1, a2) with
        | true =>
            simp [List.filter_cons, hp, List.lookup, hkne,
              ih hnd2.2 hr]
        | false => simp [List.filter_cons, hp, ih hnd2.2 hr]

/-- After merging the computed delta into the snapshot, the snapshot agrees
with the new state on every key of the new state. -/
theorem merge_delta_agrees (last : Snapshot) (S : StateObj)
    (hnd : (S.map Prod.fst).Nodup) :
    ∀ kv ∈ S, mergeSnapshot last (computeDelta last S) kv.1 = some kv.2 := by
  intro kv hkv
  obtain ⟨k, v⟩ := kv
  show mergeSnapshot last (computeDelta last S) k = some v
  have hl := lookup_filter_nodup S (fun kv => !(last kv.1 == some kv.2))
    k v hnd hkv
  unfold mergeSnapshot computeDelta
  cases hp : (last k == some v) with
  | false =>
      have hp2 : ((fun kv => !(last kv.1 == some kv.2)) (k, v)) = true := by
        simp [hp]
      rw [hl, hp2]
      simp
  | true =>
      have hp2 : ((fun kv => !(last kv.1 == some kv.2)) (k, v)) = false := by
        simp [hp]
      rw [hl, hp2]
      simp [eq_of_beq hp]

/-- A state every key of which agrees with the snapshot produces an empty
delta. -/
theorem delta_empty_of_agrees (last : Snapshot) (S : StateObj)
    (h : ∀ kv ∈ S, last kv.1 = some kv.2) :
    computeDelta last S = [] := by
  unfold computeDelta
  apply List.filter_eq_nil_iff.mpr
  intro kv hkv
  simp [h kv hkv]

/-- With pairwise-distinct keys, a state differing from the snapshot in
exactly the key `k` (old value ≠ new value `v`, all other keys agreeing)
computes the delta `[(k, v)]`. -/
theorem delta_single (last : Snapshot) (k v : String)
    (hkv : last k ≠ some v) :
    ∀ S : StateObj, (S.map Prod.fst).Nodup → (k, v) ∈ S →
      (∀ kv ∈ S, kv.1 ≠ k → last kv.1 = some kv.2) →
      computeDelta last S = [(k, v)] := by
  intro S
  induction S with
  | nil => intro _ hmem _; cases hmem
  | cons a rest ih =>
      intro hnd hmem hrest
      obtain ⟨a1, a2⟩ := a
      have hnd2 : ¬ a1 ∈ rest.map Prod.fst ∧
          (rest.map Prod.fst).Nodup := by
        simpa using hnd
      rcases List.mem_cons.mp hmem with he | hr
      · rw [Prod.mk.injEq] at he
        obtain ⟨rfl, rfl⟩ := he
        have hp : (last k == some v) = false := beq_eq_false_iff_ne.mpr hkv
        have hrest0 : computeDelta last rest = [] := by
          apply delta_empty_of_agrees
          intro kv hkv2
          apply hrest kv (List.mem_cons_of_mem _ hkv2)
          intro he2
          exact hnd2.1 (he2 ▸ List.mem_map_of_mem Prod.fst hkv2)
        unfold computeDelta at hrest0 ⊢
        rw [List.filter_cons]
        simp [hp, hrest0]
      · have hane : a1 ≠ k := by
          intro he
          exact hnd2.1 (he ▸ List.mem_map_of_mem Prod.fst hr)
        have ha : last a1 = some a2 := hrest (a1, a2) (by simp) hane
        have hp : (last a1 == some a2) = true := beq_iff_eq.mpr ha
        have hr2 := ih hnd2.2 hr
          (fun kv hkv2 => hrest kv (List.mem_cons_of_mem _ hkv2))
        unfold computeDelta at hr2 ⊢
        rw [List.filter_cons]
        simp [hp, hr2]

/-- An immediate `broadcast` leaves the batch state untouched and sends one
single-payload frame. -/
theorem broadcast_immediate (st : BatchState α) (ty : String) (d : α) :
    broadcast st ty d true = (st, [Frame.single ⟨ty, d⟩]) := by
  simp [broadcast]

/-- C3: (a) calling `broadcastStateChanges` twice in a row with the same
state object produces zero outbound messages on the second call; (b) a
state differing from the snapshot in exactly one top-level key produces
exactly one immediate `state_delta` message containing only that key, and
the snapshot is updated by merging that key in — every other key keeps its
previous snapshot value rather than being replaced wholesale. -/
theorem delta_minimality :
    (∀ (bst : BatchState StateObj) (last : Snapshot) (S : StateObj),
      (S.map Prod.fst).Nodup →
      (broadcastStateChanges (broadcastStateChanges bst last S).1
        (broadcastStateChanges bst last S).2.1 S).2.2 = []) ∧
    (∀ (bst : BatchState StateObj) (last : Snapshot) (S : StateObj)
       (k v : String),
      (S.map Prod.fst).Nodup → (k, v) ∈ S → last k ≠ some v →
      (∀ kv ∈ S, kv.1 ≠ k → last kv.1 = some kv.2) →
      broadcastStateChanges bst last S =
        (bst, mergeSnapshot last [(k, v)],
         [Frame.single ⟨"state_delta", [(k, v)]⟩]) ∧
      mergeSnapshot last [(k, v)] k = some v ∧
      (∀ j, j ≠ k → mergeSnapshot last [(k, v)] j = last j)) := by
  constructor
  · intro bst last S hnd
    by_cases h : (computeDelta last S).length > 0
    · have hfst : broadcastStateChanges bst last S =
          ((broadcast bst "state_delta" (computeDelta last S) true).1,
           mergeSnapshot last (computeDelta last S),
           (broadcast bst "state_delta" (computeDelta last S) true).2) := by
        simp only [broadcastStateChanges]
        rw [if_pos h]
      rw [hfst]
      have hempty := delta_empty_of_agrees
        (mergeSnapshot last (computeDelta last S)) S
        (merge_delta_agrees last S hnd)
      simp only [broadcastStateChanges]
      rw [hempty]
      simp
    · have h0 : computeDelta last S = [] := List.length_eq_zero.mp (by omega)
      have hfst : broadcastStateChanges bst last S = (bst, last, []) := by
        simp only [broadcastStateChanges]
        rw [if_neg h]
      rw [hfst]
      simp only [broadcastStateChanges]
      rw [h0]
      simp
  · intro bst last S k v hnd hmem hkv hrest
    have hd := delta_single last k v hkv S hnd hmem hrest
    refine ⟨?_, ?_, ?_⟩
    · simp only [broadcastStateChanges]
      rw [hd, if_pos (by simp : ([(k, v)] : StateObj).length > 0),
        broadcast_immediate]
    · simp [mergeSnapshot, List.lookup]
    · intro j hj
      have hb : (j == k) = false := beq_eq_false_iff_ne.mpr hj
      simp [mergeSnapshot, List.lookup, hb]

/-- Witness for C3 at a concrete snapshot and state: `queue` changed from
`"qOld"` to `"qNew"`, `pinnedMessage` unchanged. -/
theorem delta_minimality_witness :
    ((sampleState.map Prod.fst).Nodup ∧
      ("queue", "qNew") ∈ sampleState ∧
      sampleSnapshot "queue" ≠ some "qNew" ∧
      (∀ kv ∈ sampleState, kv.1 ≠ "queue" →
        sampleSnapshot kv.1 = some kv.2)) ∧
    (broadcastStateChanges (broadcastStateChanges ⟨[], false⟩
        sampleSnapshot sampleState).1
      (broadcastStateChanges ⟨[], false⟩ sampleSnapshot sampleState).2.1
      sampleState).2.2 = [] ∧
    broadcastStateChanges ⟨[], false⟩ sampleSnapshot sampleState =
      (⟨[], false⟩, mergeSnapshot sampleSnapshot [("queue", "qNew")],
       [Frame.single ⟨"state_delta", [("queue", "qNew")]⟩]) ∧
    mergeSnapshot sampleSnapshot [("queue", "qNew")] "queue" = some "qNew" ∧
    (∀ j, j ≠ "queue" →
      mergeSnapshot sampleSnapshot [("queue", "qNew")] j =
        sampleSnapshot j) := by
  have hnd : (sampleState.map Prod.fst).Nodup := by decide
  have hmem : ("queue", "qNew") ∈ sampleState := by decide
  have hkv : sampleSnapshot "queue" ≠ some "qNew" := by decide
  have hrest : ∀ kv ∈ sampleState, kv.1 ≠ "queue" →
      sampleSnapshot kv.1 = some kv.2 := by decide
  have h2 := delta_minimality.2 ⟨[], false⟩ sampleSnapshot sampleState
    "queue" "qNew" hnd hmem hkv hrest
  exact ⟨⟨hnd, hmem, hkv, hrest⟩,
    delta_minimality.1 ⟨[], false⟩ sampleSnapshot sampleState hnd,
    h2.1, h2.2.1, h2.2.2⟩

end BroadcastSystem
